import Mathlib

/-!
Shallow embedding of the PhotoMind asynchronous photo-ingestion pipeline
(backend/app/services/vision_service.py, backend/app/services/task_service.py,
backend/app/routers/import_stream.py).

Python floats are modelled as exact rationals; Python's `round(x, 1)`
(round-half-to-even to one decimal) is modelled by `round1`.  Timestamps
(`created_at` / `updated_at` / `completed_at` and event `timestamp` fields)
are real-time data and are omitted from the record models; no claim
mentions them.
-/

namespace PhotoMind

/-- `min(max(x, 1.0), 5.0)` from `VisionService._safe_score` /
`VisionService._compute_overall`. -/
def clamp15 (x : ℚ) : ℚ := min (max x 1) 5

/-- Round-half-to-even to the nearest integer (Python's `round(x)` tie rule). -/
def rhe (x : ℚ) : ℤ :=
  if x - ⌊x⌋ < 1/2 then ⌊x⌋
  else if 1/2 < x - ⌊x⌋ then ⌊x⌋ + 1
  else if ⌊x⌋ % 2 = 0 then ⌊x⌋ else ⌊x⌋ + 1

/-- Python's `round(x, 1)`: round to one decimal place. -/
def round1 (x : ℚ) : ℚ := (rhe (x * 10) : ℚ) / 10

/-- `VisionService._safe_score(value, default)`: a missing / non-numeric value
(`none`) falls back to the default, then the result is clamped to `[1, 5]`
and rounded to one decimal. -/
def safe_score (value : Option ℚ) (default : ℚ) : ℚ :=
  round1 (clamp15 (value.getD default))

/-- The raw weighted blend inside `VisionService._compute_overall`:
`c1*0.25 + c2*0.2 + c3*0.25 + c4*0.2 + cr*0.1`. -/
def overall_blend (c1 c2 c3 c4 cr : ℚ) : ℚ :=
  c1 * (1/4) + c2 * (1/5) + c3 * (1/4) + c4 * (1/5) + cr * (1/10)

/-- The sanitized sub-scores and creativity of `VisionService._compute_overall`:
each sub-score through `_safe_score` with default `2.8`; creativity through
`_safe_score` with the mean of the four sanitized sub-scores as default. -/
def compute_overall_raw (composition color lighting sharpness creativity : Option ℚ) : ℚ :=
  let c1 := safe_score composition (28/10)
  let c2 := safe_score color (28/10)
  let c3 := safe_score lighting (28/10)
  let c4 := safe_score sharpness (28/10)
  let cr := safe_score creativity ((c1 + c2 + c3 + c4) / 4)
  overall_blend c1 c2 c3 c4 cr

/-- `VisionService._compute_overall`: the weighted blend of the sanitized
sub-scores, clamped to `[1, 5]` and rounded to one decimal. -/
def compute_overall (composition color lighting sharpness creativity : Option ℚ) : ℚ :=
  round1 (clamp15 (compute_overall_raw composition color lighting sharpness creativity))

/-- A rational is an exact one-decimal value (an integer number of tenths). -/
def IsTenth (x : ℚ) : Prop := ∃ n : ℤ, x = n / 10

theorem clamp15_le (x : ℚ) : clamp15 x ≤ 5 := min_le_right _ _

theorem one_le_clamp15 (x : ℚ) : 1 ≤ clamp15 x :=
  le_min (le_max_right _ _) (by norm_num)

theorem clamp15_of_mem {x : ℚ} (h1 : 1 ≤ x) (h5 : x ≤ 5) : clamp15 x = x := by
  unfold clamp15
  rw [max_eq_left h1, min_eq_left h5]

theorem rhe_ge_floor (x : ℚ) : ⌊x⌋ ≤ rhe x := by
  unfold rhe
  split_ifs <;> omega

theorem rhe_le_floor_add_one (x : ℚ) : rhe x ≤ ⌊x⌋ + 1 := by
  unfold rhe
  split_ifs <;> omega

theorem rhe_le_of_le {x : ℚ} {n : ℤ} (h : x ≤ (n : ℚ)) : rhe x ≤ n := by
  rcases eq_or_lt_of_le h with heq | hlt
  · have hfl : ⌊x⌋ = n := by rw [heq, Int.floor_intCast]
    have : x - ⌊x⌋ < 1/2 := by rw [hfl, ← heq]; norm_num
    unfold rhe
    rw [if_pos this, hfl]
  · have : ⌊x⌋ < n := by rwa [Int.floor_lt]
    calc rhe x ≤ ⌊x⌋ + 1 := rhe_le_floor_add_one x
    _ ≤ n := by omega

theorem le_rhe_of_le {x : ℚ} {n : ℤ} (h : (n : ℚ) ≤ x) : n ≤ rhe x :=
  le_trans (Int.le_floor.mpr h) (rhe_ge_floor x)

theorem round1_mem {x : ℚ} (h1 : 1 ≤ x) (h5 : x ≤ 5) :
    1 ≤ round1 x ∧ round1 x ≤ 5 := by
  have h10 : ((10 : ℤ) : ℚ) ≤ x * 10 := by push_cast; linarith
  have h50 : x * 10 ≤ ((50 : ℤ) : ℚ) := by push_cast; linarith
  have hlo : (10 : ℤ) ≤ rhe (x * 10) := le_rhe_of_le h10
  have hhi : rhe (x * 10) ≤ (50 : ℤ) := rhe_le_of_le h50
  constructor
  · unfold round1
    rw [le_div_iff₀ (by norm_num : (0:ℚ) < 10)]
    calc (1 : ℚ) * 10 = ((10 : ℤ) : ℚ) := by norm_num
    _ ≤ (rhe (x * 10) : ℚ) := by exact_mod_cast hlo
  · unfold round1
    rw [div_le_iff₀ (by norm_num : (0:ℚ) < 10)]
    calc (rhe (x * 10) : ℚ) ≤ ((50 : ℤ) : ℚ) := by exact_mod_cast hhi
    _ = 5 * 10 := by norm_num

theorem round1_isTenth (x : ℚ) : IsTenth (round1 x) := ⟨rhe (x * 10), rfl⟩

theorem round1_of_isTenth {x : ℚ} (h : IsTenth x) : round1 x = x := by
  obtain ⟨n, rfl⟩ := h
  have hx : (n : ℚ) / 10 * 10 = (n : ℚ) := by field_simp
  unfold round1
  rw [hx]
  have hfl : ⌊(n : ℚ)⌋ = n := Int.floor_intCast n
  have : (n : ℚ) - ⌊(n : ℚ)⌋ < 1/2 := by rw [hfl]; norm_num
  unfold rhe
  rw [if_pos this, hfl]

theorem safe_score_mem (v : Option ℚ) (d : ℚ) :
    1 ≤ safe_score v d ∧ safe_score v d ≤ 5 :=
  round1_mem (one_le_clamp15 _) (clamp15_le _)

theorem safe_score_isTenth (v : Option ℚ) (d : ℚ) : IsTenth (safe_score v d) :=
  round1_isTenth _

/-- Sanitizing an already-sanitized score changes nothing: `_safe_score` is
idempotent on in-range one-decimal values. -/
theorem safe_score_idem {x : ℚ} (h1 : 1 ≤ x) (h5 : x ≤ 5) (ht : IsTenth x)
    (d : ℚ) : safe_score (some x) d = x := by
  unfold safe_score
  rw [Option.getD_some, clamp15_of_mem h1 h5, round1_of_isTenth ht]

/-- Evaluation rule for `rhe` when the fractional part is below one half. -/
theorem rhe_eval_lt {x : ℚ} {f : ℤ} (hf : ⌊x⌋ = f) (h : x - (f : ℚ) < 1/2) :
    rhe x = f := by
  unfold rhe
  rw [hf, if_pos h]

/-- Evaluation rule for `rhe` when the fractional part is above one half. -/
theorem rhe_eval_gt {x : ℚ} {f : ℤ} (hf : ⌊x⌋ = f) (h : 1/2 < x - (f : ℚ)) :
    rhe x = f + 1 := by
  unfold rhe
  rw [hf, if_neg (by linarith), if_pos h]

/-- Evaluation rule for `rhe` at an exact tie with an odd floor. -/
theorem rhe_eval_tie_odd {x : ℚ} {f : ℤ} (hf : ⌊x⌋ = f) (h : x - (f : ℚ) = 1/2)
    (hodd : f % 2 = 1) : rhe x = f + 1 := by
  unfold rhe
  rw [hf, if_neg (by rw [h]; exact lt_irrefl _), if_neg (by rw [h]; exact lt_irrefl _),
    if_neg (by omega)]

/-- Evaluation rule for `rhe` at an exact tie with an even floor. -/
theorem rhe_eval_tie_even {x : ℚ} {f : ℤ} (hf : ⌊x⌋ = f) (h : x - (f : ℚ) = 1/2)
    (heven : f % 2 = 0) : rhe x = f := by
  unfold rhe
  rw [hf, if_neg (by rw [h]; exact lt_irrefl _), if_neg (by rw [h]; exact lt_irrefl _),
    if_pos heven]

/-- Modelled from the spec: the `PhotoScores` pydantic model is imported from
`app.models` by `import_stream.py` and `photos.py` but its declaration is
missing from the source tree; the spec (§6, `ai_complete` event) gives its
shape as `scores{composition,color,lighting,sharpness,overall,reason}`, all
score fields numeric and `reason` a string, with no extra validation. -/
structure PhotoScores where
  composition : ℚ
  color : ℚ
  lighting : ℚ
  sharpness : ℚ
  overall : ℚ
  reason : String
deriving DecidableEq, Repr

/-- The parsed JSON payload of a successful GLM-4V response, as read by
`VisionService.analyze_photo` after `json.loads`: each score field is `none`
when the key is missing or its value is not convertible to a number. -/
structure ParsedVision where
  description : String
  tags : List String
  subjects : String
  mood : String
  composition : Option ℚ
  color : Option ℚ
  lighting : Option ℚ
  sharpness : Option ℚ
  reason : String
  creativity : Option ℚ
deriving DecidableEq, Repr

/-- The outcome of the provider call inside `VisionService.analyze_photo`:
either the request (or image preparation) raised an exception, or a response
arrived with a status code and body content, whose JSON payload parsed
(`some`) or failed to parse (`none`, the `json.JSONDecodeError` branch). -/
inductive ProviderOutcome where
  | exn (msg : String)
  | resp (status : Nat) (content : String) (parsed : Option ParsedVision)
deriving DecidableEq, Repr

/-- The dictionary returned by `VisionService.analyze_photo`.  The fallback
returns carry no `scores` key (`none`) and no `subjects` / `mood` keys (read
back with default `""` by the caller). -/
structure VisionResult where
  description : String
  tags : List String
  subjects : String
  mood : String
  scores : Option PhotoScores
deriving DecidableEq, Repr

/-- The successful-parse branch of `VisionService.analyze_photo`: tag and
description enrichment from `mood` / `subjects`, then score sanitization.
The `suggestions` normalization (pure string munging, mentioned by no claim)
is not modelled. -/
def analyze_success (p : ParsedVision) : VisionResult :=
  let tags1 := if p.mood ≠ "" ∧ p.mood ∉ p.tags then p.tags ++ [p.mood] else p.tags
  let tags2 := if p.subjects ≠ "" ∧ p.subjects ∉ tags1 then tags1 ++ [p.subjects] else tags1
  let desc1 :=
    if p.subjects ≠ "" ∧ p.description.containsSubstr p.subjects.toSubstring = false then
      p.subjects ++ "。" ++ p.description
    else p.description
  let desc2 :=
    if p.mood ≠ "" ∧ desc1.containsSubstr p.mood.toSubstring = false then
      desc1 ++ " 整体氛围" ++ p.mood ++ "。"
    else desc1
  let c1 := safe_score p.composition (28/10)
  let c2 := safe_score p.color (28/10)
  let c3 := safe_score p.lighting (28/10)
  let c4 := safe_score p.sharpness (28/10)
  let ov := compute_overall (some c1) (some c2) (some c3) (some c4) p.creativity
  ⟨desc2, tags2, p.subjects, p.mood, some ⟨c1, c2, c3, c4, ov, p.reason⟩⟩

/-- `VisionService.analyze_photo`: total in the outcome — every failure is
caught and converted into a fallback result dictionary, never re-raised.
An exception yields `{"description": "分析失败", "tags": []}`; a non-200
response yields `{"description": "无法识别", "tags": []}`; an unparseable
body yields `{"description": content, "tags": []}`. -/
def analyze_photo (o : ProviderOutcome) : VisionResult :=
  match o with
  | .exn _ => ⟨"分析失败", [], "", "", none⟩
  | .resp status content parsed =>
    if status ≠ 200 then ⟨"无法识别", [], "", "", none⟩
    else
      match parsed with
      | none => ⟨content, [], "", "", none⟩
      | some p => analyze_success p

/-- The EXIF dictionary extracted by `EXIFService.extract`, restricted to the
keys read by the import-stream worker. -/
structure ExifData where
  datetime : Option String := none
  camera : Option String := none
  lens : Option String := none
  iso : Option String := none
  aperture : Option String := none
  shutter : Option String := none
  focal_length : Option String := none
  gps_latitude : Option ℚ := none
  gps_longitude : Option ℚ := none
deriving DecidableEq, Repr

/-- The `data` payload of one stream event, with one optional field per key
ever placed in an event payload by the worker. -/
structure EvData where
  photo_id : Option String := none
  filename : Option String := none
  filepath : Option String := none
  location : Option String := none
  status : Option String := none
  description : Option String := none
  tags : Option (List String) := none
  mood : Option String := none
  subjects : Option String := none
  scores : Option PhotoScores := none
  exif : Option ExifData := none
  success : Option Bool := none
  error : Option String := none
  message : Option String := none
  total : Option Nat := none
  processed : Option Nat := none
  failed : Option Nat := none
  current : Option Nat := none
  percentage : Option ℚ := none
deriving DecidableEq, Repr

/-- One stream event: `{"type": ..., "data": {...}}`.  The `timestamp` stamped
on by `TaskService.update_task` is real-time data and is omitted. -/
structure Event where
  type : String
  data : EvData
deriving DecidableEq, Repr

/-- A task record as built by `TaskService.create_task` (timestamps
omitted). -/
structure Task where
  task_id : String
  type : String
  status : String
  total : Nat
  processed : Nat
  failed : Nat
  files : List String
  events : List Event
  current_file : Option String
  error : Option String
deriving DecidableEq, Repr

/-- A string-keyed dictionary of task records. -/
def TaskMap : Type := List (String × Task)

/-- Python dict lookup: first matching entry. -/
def TaskMap.lookup (s : TaskMap) (k : String) : Option Task :=
  (List.find? (fun p => p.1 == k) s).map (fun p => p.2)

/-- Python dict assignment `s[k] = v`. -/
def TaskMap.set (s : TaskMap) (k : String) (v : Task) : TaskMap :=
  (k, v) :: List.filter (fun p => !(p.1 == k)) s

/-- Python dict deletion `del s[k]`. -/
def TaskMap.del (s : TaskMap) (k : String) : TaskMap :=
  List.filter (fun p => !(p.1 == k)) s

/-- The state of the `TaskService` singleton: the in-memory `_active_tasks`
dictionary plus the task files on disk (one JSON file per task id). -/
structure ServiceState where
  active : TaskMap
  disk : TaskMap

/-- `TaskService._save_task` with explicit write outcome `ok`: a failed write
is caught and logged, leaving the disk unchanged; no error ever escapes to
the caller (the return type has no failure channel). -/
def save_task (ok : Bool) (st : ServiceState) (t : Task) : ServiceState :=
  if ok then { st with disk := st.disk.set t.task_id t } else st

/-- `TaskService.get_task`: in-memory first, else load from file and cache it
into `_active_tasks`; returns the possibly-extended state and the record. -/
def get_task_load (st : ServiceState) (id : String) : ServiceState × Option Task :=
  match st.active.lookup id with
  | some t => (st, some t)
  | none =>
    match st.disk.lookup id with
    | some t => ({ st with active := st.active.set id t }, some t)
    | none => (st, none)

/-- The record `TaskService.get_task` returns (ignoring the cache effect). -/
def get_task (st : ServiceState) (id : String) : Option Task :=
  (get_task_load st id).2

/-- `TaskService.create_task`: builds a fresh record and assigns it into
`_active_tasks` unconditionally — there is no check that `task_id` already
exists — then saves it. -/
def create_task (ok : Bool) (st : ServiceState) (id ttype : String) (total : Nat)
    (files : List String) : ServiceState × Task :=
  let task : Task :=
    ⟨id, ttype, "pending", total, 0, 0, files, [], none, none⟩
  let st1 : ServiceState := { st with active := st.active.set id task }
  (save_task ok st1 task, task)

/-- The partial-update dictionaries passed to `TaskService.update_task` by
this codebase: the keys ever present are `status`, `processed`, `failed`,
`current_file` and `error` (each `none` when the key is absent;
`current_file` may be present with value `None`, hence the nested option). -/
structure TaskUpdates where
  status : Option String := none
  processed : Option Nat := none
  failed : Option Nat := none
  current_file : Option (Option String) := none
  error : Option String := none
deriving DecidableEq, Repr

/-- `task.update(updates)`: merge the present keys into the record. -/
def applyUpdates (t : Task) (u : TaskUpdates) : Task :=
  { t with
    status := u.status.getD t.status
    processed := u.processed.getD t.processed
    failed := u.failed.getD t.failed
    current_file := u.current_file.getD t.current_file
    error := match u.error with | some e => some e | none => t.error }

/-- The event-append step of `TaskService.update_task`: append, then keep only
the most recent 100 events. -/
def appendEvent (t : Task) (e : Option Event) : Task :=
  match e with
  | none => t
  | some ev =>
    let evs := t.events ++ [ev]
    { t with events := if 100 < evs.length then evs.drop (evs.length - 100) else evs }

/-- `TaskService.update_task`: look up (warn and return when absent), merge
the updates, optionally append the event with truncation, save. -/
def update_task (ok : Bool) (st : ServiceState) (id : String) (u : TaskUpdates)
    (e : Option Event) : ServiceState :=
  match get_task_load st id with
  | (st1, some t) =>
    let t1 := appendEvent (applyUpdates t u) e
    let st2 : ServiceState := { st1 with active := st1.active.set id t1 }
    save_task ok st2 t1
  | (st1, none) => st1

/-- `TaskService.complete_task`: set terminal status (and the error marker if
given), then drop the record from `_active_tasks` (the file remains). -/
def complete_task (ok : Bool) (st : ServiceState) (id : String) (success : Bool)
    (error : Option String) : ServiceState :=
  let u : TaskUpdates :=
    { status := some (if success then "completed" else "failed"), error := error }
  let st1 := update_task ok st id u none
  { st1 with active := st1.active.del id }

/-- `os.path.basename` for forward-slash paths. -/
def basename (p : String) : String := ((p.splitOn "/").getLast?).getD p

/-- Python truthiness of an optional float (0.0 and absence are falsy), as in
`if exif_data.get("gps_latitude") and exif_data.get("gps_longitude"):`. -/
def truthyQ : Option ℚ → Bool
  | none => false
  | some x => !(x == 0)

/-- One effect on the `TaskService` store issued by the worker: an
`update_task` call (with its optional event) or the final `complete_task`. -/
inductive StoreOp where
  | upd (u : TaskUpdates) (e : Option Event)
  | complete (success : Bool)
deriving DecidableEq, Repr

/-- The mutable state of `ImportStreamManager`: the live queue (its items are
serialized events, `none` being the end sentinel) and the counters. -/
structure Manager where
  task_id : String
  queue : List (Option Event)
  total : Nat
  processed : Nat
  failed : Nat
deriving DecidableEq, Repr

/-- `ImportStreamManager.send_event`: push the serialized event onto the live
queue and persist it via `update_task` with the current counters and
`current_file = data.get("filename")`. -/
def send_event (m : Manager) (etype : String) (d : EvData) : Manager × StoreOp :=
  ({ m with queue := m.queue ++ [some ⟨etype, d⟩] },
   .upd { processed := some m.processed, failed := some m.failed,
          current_file := some d.filename } (some ⟨etype, d⟩))

/-- The per-photo inputs and external-stage outcomes consumed by
`ImportStreamManager.process_photo`: EXIF extraction may raise
(`Except.error`), reverse geocoding never raises (absence is an outcome),
the vision call is a `ProviderOutcome` (never raises, see `analyze_photo`),
and the vector-store insert may raise. -/
structure PhotoJob where
  filepath : String
  photo_id : String
  exif : Except String ExifData
  geocode : Option String
  vision : ProviderOutcome
  persist : Except String Unit
deriving Repr

/-- The location resolved for one photo: geocoding is attempted only when
both GPS coordinates are present and truthy, and an empty or absent address
is no location (`if address:`). -/
def photo_loc (ex : ExifData) (geocode : Option String) : Option String :=
  if truthyQ ex.gps_latitude && truthyQ ex.gps_longitude then
    match geocode with
    | some a => if a ≠ "" then some a else none
    | none => none
  else none

/-- `ImportStreamManager.process_photo`: the per-photo stage pipeline with its
single `try/except` — any stage failure lands in the `photo_error` branch,
which increments `failed` and emits exactly one `photo_error` event.  The
0.5-second cosmetic sleep is real time and is not modelled; the progress
percentage division assumes `total ≠ 0` (guaranteed by the caller loop; the
rational model yields 0 where Python would raise `ZeroDivisionError`). -/
def process_photo (m : Manager) (job : PhotoJob) : Manager × List StoreOp :=
  let filename := basename job.filepath
  let op0 : StoreOp :=
    .upd { status := some "processing", current_file := some (some filename) } none
  let (m1, e1) := send_event m "photo_start"
    { photo_id := some job.photo_id, filename := some filename,
      filepath := some job.filepath,
      current := some (m.processed + 1), total := some m.total,
      percentage := some (round1 (((m.processed : ℚ) + 1) / (m.total : ℚ) * 100)) }
  match job.exif with
  | .error msg =>
    let m2 := { m1 with failed := m1.failed + 1 }
    let (m3, e2) := send_event m2 "photo_error"
      { photo_id := some job.photo_id, filename := some (basename job.filepath),
        error := some msg }
    (m3, [op0, e1, e2])
  | .ok ex =>
    let (m2, e2) := send_event m1 "exif_extracted"
      { photo_id := some job.photo_id, filename := some filename, exif := some ex }
    let loc : Option String := photo_loc ex job.geocode
    let (m3, locOps) :=
      match loc with
      | some a =>
        let (m3, e3) := send_event m2 "location_found"
          { photo_id := some job.photo_id, filename := some filename,
            location := some a }
        (m3, [e3])
      | none => (m2, ([] : List StoreOp))
    let (m4, e4) := send_event m3 "ai_analyzing"
      { photo_id := some job.photo_id, filename := some filename,
        status := some "正在分析照片内容..." }
    let vr := analyze_photo job.vision
    let scores : PhotoScores :=
      match vr.scores with
      | some sc => sc
      | none => ⟨0, 0, 0, 0, 0, ""⟩
    let (m5, e5) := send_event m4 "ai_complete"
      { photo_id := some job.photo_id, filename := some filename,
        description := some vr.description, tags := some vr.tags,
        mood := some vr.mood, subjects := some vr.subjects,
        scores := some scores }
    match job.persist with
    | .error msg =>
      let m6 := { m5 with failed := m5.failed + 1 }
      let (m7, e6) := send_event m6 "photo_error"
        { photo_id := some job.photo_id, filename := some (basename job.filepath),
          error := some msg }
      (m7, [op0, e1, e2] ++ locOps ++ [e4, e5, e6])
    | .ok _ =>
      let (m6, e6) := send_event m5 "photo_complete"
        { photo_id := some job.photo_id, filename := some filename,
          success := some true, description := some vr.description,
          tags := some (vr.tags.take 5), location := loc,
          scores := some scores }
      let m7 := { m6 with processed := m6.processed + 1 }
      (m7, [op0, e1, e2] ++ locOps ++ [e4, e5, e6])

/-- The `for` loop of `ImportStreamManager.process_files`. -/
def process_jobs (m : Manager) (jobs : List PhotoJob) : Manager × List StoreOp :=
  match jobs with
  | [] => (m, [])
  | j :: rest =>
    let (m1, ops1) := process_photo m j
    let (m2, ops2) := process_jobs m1 rest
    (m2, ops1 ++ ops2)

/-- `ImportStreamManager.process_files`: set `total`, emit `import_start`,
process every file, emit `import_complete`, complete the task
(`success` iff `failed == 0`), push the end sentinel. -/
def process_files (m : Manager) (jobs : List PhotoJob) : Manager × List StoreOp :=
  let m0 := { m with total := jobs.length }
  let (m1, e1) := send_event m0 "import_start"
    { total := some m0.total,
      message := some ("开始导入 " ++ toString m0.total ++ " 张照片") }
  let (m2, ops) := process_jobs m1 jobs
  let (m3, e2) := send_event m2 "import_complete"
    { total := some m2.total, processed := some m2.processed,
      failed := some m2.failed,
      message := some ("导入完成！成功 " ++ toString m2.processed ++
        " 张，失败 " ++ toString m2.failed ++ " 张") }
  let success := m3.failed == 0
  let m4 := { m3 with queue := m3.queue ++ [none] }
  (m4, [e1] ++ ops ++ [e2, .complete success])

/-- A fresh `ImportStreamManager(task_id)`. -/
def new_manager (task_id : String) : Manager := ⟨task_id, [], 0, 0, 0⟩

/-- Apply one worker store effect to the task store. -/
def apply_op (ok : Bool) (id : String) (st : ServiceState) : StoreOp → ServiceState
  | .upd u e => update_task ok st id u e
  | .complete success => complete_task ok st id success none

/-- Apply a sequence of worker store effects. -/
def apply_ops (ok : Bool) (id : String) (st : ServiceState)
    (ops : List StoreOp) : ServiceState :=
  List.foldl (apply_op ok id) st ops

/-- The sequence of store states after each worker store effect: every one of
these is an observable point (each is persisted and readable by pollers). -/
def op_states (ok : Bool) (id : String) (st : ServiceState) :
    List StoreOp → List ServiceState
  | [] => []
  | op :: rest =>
    let st1 := apply_op ok id st op
    st1 :: op_states ok id st1 rest

/-- The events carried by a sequence of store effects, in order. -/
def events_of (ops : List StoreOp) : List Event :=
  ops.filterMap (fun op =>
    match op with
    | .upd _ (some e) => some e
    | _ => none)

/-- A full import run as wired up by the `/upload` route: `create_task` with
the file list, then the background `process_files` worker, whose store
effects are applied in order. -/
def run_import (ok : Bool) (st : ServiceState) (id : String)
    (files : List String) (jobs : List PhotoJob) : ServiceState × Manager :=
  let (st1, _) := create_task ok st id "stream" files.length files
  let (m, ops) := process_files (new_manager id) jobs
  (apply_ops ok id st1 ops, m)

/-- Every observable store state of a run, starting from the state right
after `create_task`. -/
def run_states (ok : Bool) (st : ServiceState) (id : String)
    (files : List String) (jobs : List PhotoJob) : List ServiceState :=
  let (st1, _) := create_task ok st id "stream" files.length files
  let (_, ops) := process_files (new_manager id) jobs
  st1 :: op_states ok id st1 ops

/-- The `error` transport event of the stream gateway. -/
def error_event (msg : String) : Event := ⟨"error", { message := some msg }⟩

/-- The terminal transport sentinel `{"type": "complete", "data": {}}`. -/
def complete_event : Event := ⟨"complete", {}⟩

/-- The `import_complete` summary synthesized from a stored terminal task. -/
def import_complete_of (t : Task) : Event :=
  ⟨"import_complete",
   { total := some t.total, processed := some t.processed,
     failed := some t.failed }⟩

/-- The history-replay prefix of `event_stream`: only when `last_index > 0`
and the stored event list is non-empty does it yield `events[last_index:]`. -/
def replay_history (t : Task) (last_index : Nat) : List Event :=
  if 0 < last_index ∧ t.events ≠ [] then t.events.drop last_index else []

/-- The live-tailing loop of `event_stream` over the queue's future items:
end of input models the 300-second idle timeout, the `none` sentinel yields
the terminal `complete` event. -/
def tail_live : List (Option Event) → List Event
  | [] => [error_event "导入超时"]
  | none :: _ => [complete_event]
  | some e :: rest => e :: tail_live rest

/-- `event_stream(task_id, last_event_index)`: unknown task yields one error
event; otherwise replay history, then — if the task is already terminal —
synthesize one `import_complete` from the stored totals plus the transport
sentinel and stop; otherwise tail the live queue. -/
def event_stream (st : ServiceState) (task_id : String) (last_index : Nat)
    (live : List (Option Event)) : List Event :=
  match get_task st task_id with
  | none => [error_event "任务不存在"]
  | some task =>
    let history := replay_history task last_index
    if task.status = "completed" ∨ task.status = "failed" then
      history ++ [import_complete_of task, complete_event]
    else
      history ++ tail_live live

theorem find?_filter_ne {α : Type} (l : List (String × α)) (k k' : String)
    (h : k' ≠ k) :
    List.find? (fun p => p.1 == k') (List.filter (fun p => !(p.1 == k)) l) =
      List.find? (fun p => p.1 == k') l := by
  induction l with
  | nil => rfl
  | cons q t ih =>
    by_cases hq : q.1 = k
    · have h1 : (q.1 == k) = true := by rwa [beq_iff_eq]
      have h2 : (q.1 == k') = false := by
        rw [beq_eq_false_iff_ne, hq]
        exact fun hh => h hh.symm
      simp [List.filter_cons, h1, List.find?_cons, h2, ih]
    · have h1 : (q.1 == k) = false := by rwa [beq_eq_false_iff_ne]
      cases hq' : (q.1 == k') with
      | true => simp [List.filter_cons, h1, List.find?_cons, hq']
      | false => simp [List.filter_cons, h1, List.find?_cons, hq', ih]

theorem find?_filter_self {α : Type} (l : List (String × α)) (k : String) :
    List.find? (fun p => p.1 == k) (List.filter (fun p => !(p.1 == k)) l) =
      none := by
  induction l with
  | nil => rfl
  | cons q t ih =>
    by_cases hq : q.1 = k
    · have h1 : (q.1 == k) = true := by rwa [beq_iff_eq]
      simp [List.filter_cons, h1, ih]
    · have h1 : (q.1 == k) = false := by rwa [beq_eq_false_iff_ne]
      simp [List.filter_cons, h1, List.find?_cons, ih]

theorem TaskMap.lookup_set_self (s : TaskMap) (k : String) (v : Task) :
    (s.set k v).lookup k = some v := by
  unfold TaskMap.set TaskMap.lookup
  simp [List.find?_cons]

theorem TaskMap.lookup_set_ne (s : TaskMap) (k k' : String) (v : Task)
    (h : k' ≠ k) : (s.set k v).lookup k' = s.lookup k' := by
  unfold TaskMap.set TaskMap.lookup
  have h1 : (k == k') = false := by
    rw [beq_eq_false_iff_ne]
    exact fun hh => h hh.symm
  simp [List.find?_cons, h1, find?_filter_ne s k k' h]

theorem TaskMap.lookup_del_self (s : TaskMap) (k : String) :
    (s.del k).lookup k = none := by
  unfold TaskMap.del TaskMap.lookup
  simp [find?_filter_self]

theorem TaskMap.lookup_del_ne (s : TaskMap) (k k' : String) (h : k' ≠ k) :
    (s.del k).lookup k' = s.lookup k' := by
  unfold TaskMap.del TaskMap.lookup
  simp [find?_filter_ne s k k' h]

@[simp] theorem appendEvent_none (t : Task) : appendEvent t none = t := rfl

@[simp] theorem applyUpdates_task_id (t : Task) (u : TaskUpdates) :
    (applyUpdates t u).task_id = t.task_id := rfl

@[simp] theorem applyUpdates_total (t : Task) (u : TaskUpdates) :
    (applyUpdates t u).total = t.total := rfl

@[simp] theorem applyUpdates_type (t : Task) (u : TaskUpdates) :
    (applyUpdates t u).type = t.type := rfl

@[simp] theorem applyUpdates_events (t : Task) (u : TaskUpdates) :
    (applyUpdates t u).events = t.events := rfl

@[simp] theorem appendEvent_task_id (t : Task) (e : Option Event) :
    (appendEvent t e).task_id = t.task_id := by
  cases e <;> rfl

@[simp] theorem appendEvent_total (t : Task) (e : Option Event) :
    (appendEvent t e).total = t.total := by
  cases e <;> rfl

@[simp] theorem appendEvent_processed (t : Task) (e : Option Event) :
    (appendEvent t e).processed = t.processed := by
  cases e <;> rfl

@[simp] theorem appendEvent_failed (t : Task) (e : Option Event) :
    (appendEvent t e).failed = t.failed := by
  cases e <;> rfl

@[simp] theorem appendEvent_status (t : Task) (e : Option Event) :
    (appendEvent t e).status = t.status := by
  cases e <;> rfl

/-- Characterization of `update_task` on a present record: the result is the
save of some cache-extended state whose disk part is unchanged, with the
merged record assigned under `id`. -/
theorem update_task_state {st : ServiceState} {id : String} {t : Task}
    (ok : Bool) (u : TaskUpdates) (e : Option Event)
    (h : get_task st id = some t) :
    ∃ stc : ServiceState, stc.disk = st.disk ∧
      update_task ok st id u e =
        save_task ok
          { stc with active := stc.active.set id (appendEvent (applyUpdates t u) e) }
          (appendEvent (applyUpdates t u) e) := by
  unfold get_task get_task_load at h
  unfold update_task get_task_load
  cases ha : st.active.lookup id with
  | some ta =>
    simp only [ha] at h ⊢
    cases h
    exact ⟨st, rfl, rfl⟩
  | none =>
    simp only [ha] at h ⊢
    cases hd : st.disk.lookup id with
    | some td =>
      simp only [hd] at h ⊢
      cases h
      exact ⟨{ st with active := st.active.set id t }, rfl, rfl⟩
    | none =>
      simp only [hd] at h
      exact Option.noConfusion h

/-- After an `update_task` that found the record under `id`, reading `id`
back yields the merged record (the save outcome only affects the disk). -/
theorem get_task_update_self {st : ServiceState} {id : String} {t : Task}
    (ok : Bool) (u : TaskUpdates) (e : Option Event)
    (h : get_task st id = some t) :
    get_task (update_task ok st id u e) id =
      some (appendEvent (applyUpdates t u) e) := by
  obtain ⟨stc, _, heq⟩ := update_task_state ok u e h
  rw [heq]
  unfold save_task get_task get_task_load
  cases ok <;> simp [TaskMap.lookup_set_self]

/-- After `complete_task` with a successful save, reading `id` back yields
the record with terminal status (found on disk after the in-memory drop),
provided the stored record's own `task_id` field is `id`. -/
theorem get_task_complete_self {st : ServiceState} {id : String} {t : Task}
    (success : Bool) (err : Option String)
    (h : get_task st id = some t) (hid : t.task_id = id) :
    get_task (complete_task true st id success err) id =
      some (applyUpdates t
        { status := some (if success then "completed" else "failed"),
          error := err }) := by
  obtain ⟨stc, hdisk, heq⟩ := update_task_state true
    { status := some (if success then "completed" else "failed"), error := err }
    none h
  simp only [appendEvent_none] at heq
  have ht1 : (applyUpdates t
      { status := some (if success then "completed" else "failed"),
        error := err }).task_id = id := by simp [hid]
  unfold complete_task
  simp only [heq]
  unfold save_task get_task get_task_load
  simp [TaskMap.lookup_del_self, hid, TaskMap.lookup_set_self]

/-- Which stage failed for this photo, if any. -/
def job_failure (job : PhotoJob) : Option String :=
  match job.exif with
  | .error msg => some msg
  | .ok _ =>
    match job.persist with
    | .error msg => some msg
    | .ok _ => none

/-- The sub-list of per-photo completion events. -/
def completion_filter (es : List Event) : List Event :=
  es.filter (fun e => e.type == "photo_complete" || e.type == "photo_error")

/-- The single completion event `process_photo` emits for a job. -/
def expected_completion (job : PhotoJob) : Event :=
  match job.exif with
  | .error msg =>
    ⟨"photo_error",
     { photo_id := some job.photo_id,
       filename := some (basename job.filepath), error := some msg }⟩
  | .ok ex =>
    match job.persist with
    | .error msg =>
      ⟨"photo_error",
       { photo_id := some job.photo_id,
         filename := some (basename job.filepath), error := some msg }⟩
    | .ok _ =>
      let vr := analyze_photo job.vision
      let scores : PhotoScores :=
        match vr.scores with
        | some sc => sc
        | none => ⟨0, 0, 0, 0, 0, ""⟩
      ⟨"photo_complete",
       { photo_id := some job.photo_id,
         filename := some (basename job.filepath), success := some true,
         description := some vr.description, tags := some (vr.tags.take 5),
         location := photo_loc ex job.geocode, scores := some scores }⟩

theorem process_photo_completion (m : Manager) (job : PhotoJob) :
    completion_filter (events_of (process_photo m job).2) =
      [expected_completion job] := by
  cases hex : job.exif with
  | error msg =>
    simp [process_photo, expected_completion, send_event, hex, events_of,
      completion_filter]
  | ok ex =>
    cases hloc : photo_loc ex job.geocode with
    | some a =>
      cases hp : job.persist with
      | error msg =>
        simp [process_photo, expected_completion, send_event, hex, hloc, hp,
          events_of, completion_filter]
      | ok u =>
        simp [process_photo, expected_completion, send_event, hex, hloc, hp,
          events_of, completion_filter]
    | none =>
      cases hp : job.persist with
      | error msg =>
        simp [process_photo, expected_completion, send_event, hex, hloc, hp,
          events_of, completion_filter]
      | ok u =>
        simp [process_photo, expected_completion, send_event, hex, hloc, hp,
          events_of, completion_filter]

theorem process_photo_no_ic (m : Manager) (job : PhotoJob) :
    ∀ e ∈ events_of (process_photo m job).2, e.type ≠ "import_complete" := by
  cases hex : job.exif with
  | error msg => simp [process_photo, send_event, hex, events_of]
  | ok ex =>
    cases hloc : photo_loc ex job.geocode with
    | some a =>
      cases hp : job.persist with
      | error msg => simp [process_photo, send_event, hex, hloc, hp, events_of]
      | ok u => simp [process_photo, send_event, hex, hloc, hp, events_of]
    | none =>
      cases hp : job.persist with
      | error msg => simp [process_photo, send_event, hex, hloc, hp, events_of]
      | ok u => simp [process_photo, send_event, hex, hloc, hp, events_of]

/-- Which update payloads have in-range counters. -/
def counters_ok (n : Nat) : StoreOp → Prop
  | .upd u _ => (u.processed = none ∧ u.failed = none) ∨
      (∃ p f, u.processed = some p ∧ u.failed = some f ∧ p + f ≤ n)
  | .complete _ => True

theorem process_photo_counters {m : Manager} {bound : Nat}
    (h : m.processed + m.failed + 1 ≤ bound) (job : PhotoJob) :
    ∀ op ∈ (process_photo m job).2, counters_ok bound op := by
  intro op hop
  cases hex : job.exif with
  | error msg =>
    simp [process_photo, send_event, hex] at hop
    rcases hop with rfl | rfl | rfl <;> simp [counters_ok] <;> omega
  | ok ex =>
    cases hloc : photo_loc ex job.geocode with
    | some a =>
      cases hp : job.persist with
      | error msg =>
        simp [process_photo, send_event, hex, hloc, hp] at hop
        rcases hop with rfl | rfl | rfl | rfl | rfl | rfl | rfl <;>
          simp [counters_ok] <;> omega
      | ok u =>
        simp [process_photo, send_event, hex, hloc, hp] at hop
        rcases hop with rfl | rfl | rfl | rfl | rfl | rfl | rfl <;>
          simp [counters_ok] <;> omega
    | none =>
      cases hp : job.persist with
      | error msg =>
        simp [process_photo, send_event, hex, hloc, hp] at hop
        rcases hop with rfl | rfl | rfl | rfl | rfl | rfl <;>
          simp [counters_ok] <;> omega
      | ok u =>
        simp [process_photo, send_event, hex, hloc, hp] at hop
        rcases hop with rfl | rfl | rfl | rfl | rfl | rfl <;>
          simp [counters_ok] <;> omega


theorem process_photo_manager (m : Manager) (job : PhotoJob) :
    (process_photo m job).1.total = m.total ∧
    (process_photo m job).1.task_id = m.task_id ∧
    ((job_failure job = none ∧
        (process_photo m job).1.processed = m.processed + 1 ∧
        (process_photo m job).1.failed = m.failed) ∨
     (job_failure job ≠ none ∧
        (process_photo m job).1.processed = m.processed ∧
        (process_photo m job).1.failed = m.failed + 1)) := by
  unfold process_photo job_failure
  cases hex : job.exif with
  | error msg => simp [send_event]
  | ok ex =>
    cases hloc : photo_loc ex job.geocode with
    | some a =>
      cases hp : job.persist with
      | error msg => simp [send_event, hloc, hp]
      | ok u => simp [send_event, hloc, hp]
    | none =>
      cases hp : job.persist with
      | error msg => simp [send_event, hloc, hp]
      | ok u => simp [send_event, hloc, hp]

/-- The number of jobs whose processing fails at some stage. -/
def num_failed (jobs : List PhotoJob) : Nat :=
  (jobs.filter (fun j => (job_failure j).isSome)).length

theorem process_jobs_fst (m : Manager) (j : PhotoJob) (rest : List PhotoJob) :
    process_jobs m (j :: rest) =
      ((process_jobs (process_photo m j).1 rest).1,
       (process_photo m j).2 ++ (process_jobs (process_photo m j).1 rest).2) := by
  simp [process_jobs]

theorem process_jobs_manager (m : Manager) (jobs : List PhotoJob) :
    (process_jobs m jobs).1.total = m.total ∧
    (process_jobs m jobs).1.task_id = m.task_id ∧
    (process_jobs m jobs).1.processed + (process_jobs m jobs).1.failed =
      m.processed + m.failed + jobs.length ∧
    (process_jobs m jobs).1.failed = m.failed + num_failed jobs := by
  induction jobs generalizing m with
  | nil => simp [process_jobs, num_failed]
  | cons j rest ih =>
    obtain ⟨h1, h2, h3⟩ := process_photo_manager m j
    obtain ⟨ih1, ih2, ih3, ih4⟩ := ih (process_photo m j).1
    rw [process_jobs_fst]
    refine ⟨by rw [ih1, h1], by rw [ih2, h2], ?_, ?_⟩
    · rcases h3 with ⟨_, hp, hf⟩ | ⟨_, hp, hf⟩ <;>
        · rw [ih3, hp, hf]
          simp
          omega
    · rcases h3 with ⟨hn, hp, hf⟩ | ⟨hn, hp, hf⟩
      · rw [ih4, hf]
        have : (job_failure j).isSome = false := by simp [hn]
        simp [num_failed, List.filter_cons, this]
      · rw [ih4, hf]
        have : (job_failure j).isSome = true := by
          cases hjf : job_failure j
          · exact absurd hjf hn
          · rfl
        simp [num_failed, List.filter_cons, this]
        omega

theorem process_jobs_counters {m : Manager} {bound : Nat} (jobs : List PhotoJob)
    (h : m.processed + m.failed + jobs.length ≤ bound) :
    ∀ op ∈ (process_jobs m jobs).2, counters_ok bound op := by
  induction jobs generalizing m with
  | nil => simp [process_jobs]
  | cons j rest ih =>
    intro op hop
    have hlen : (j :: rest).length = rest.length + 1 := by simp
    rw [process_jobs_fst] at hop
    rcases List.mem_append.mp hop with hop1 | hop2
    · exact process_photo_counters (by omega) j op hop1
    · obtain ⟨h1, h2, h3⟩ := process_photo_manager m j
      refine ih ?_ op hop2
      have : (process_photo m j).1.processed + (process_photo m j).1.failed =
          m.processed + m.failed + 1 := by
        rcases h3 with ⟨_, hp, hf⟩ | ⟨_, hp, hf⟩ <;> rw [hp, hf] <;> omega
      omega


@[simp] theorem applyUpdates_processed (t : Task) (u : TaskUpdates) :
    (applyUpdates t u).processed = u.processed.getD t.processed := rfl

@[simp] theorem applyUpdates_failed (t : Task) (u : TaskUpdates) :
    (applyUpdates t u).failed = u.failed.getD t.failed := rfl

@[simp] theorem applyUpdates_status_eq (t : Task) (u : TaskUpdates) :
    (applyUpdates t u).status = u.status.getD t.status := rfl

/-- The record-store invariant maintained through a run for task `id` of
size `n`: a record is present, keyed consistently, with the created total
and counters summing to at most `n`. -/
def Inv (n : Nat) (id : String) (st : ServiceState) : Prop :=
  ∃ t, get_task st id = some t ∧ t.task_id = id ∧ t.total = n ∧
    t.processed + t.failed ≤ n

theorem get_task_create (ok : Bool) (st : ServiceState) (id ttype : String)
    (total : Nat) (files : List String) :
    get_task (create_task ok st id ttype total files).1 id =
      some ⟨id, ttype, "pending", total, 0, 0, files, [], none, none⟩ := by
  unfold create_task save_task get_task get_task_load
  cases ok <;> simp [TaskMap.lookup_set_self]

theorem apply_op_inv {n : Nat} {id : String} {st : ServiceState} {op : StoreOp}
    (hInv : Inv n id st) (hop : counters_ok n op) :
    Inv n id (apply_op true id st op) := by
  obtain ⟨t, hget, hid, htot, hsum⟩ := hInv
  cases op with
  | upd u e =>
    refine ⟨appendEvent (applyUpdates t u) e,
      get_task_update_self true u e hget, by simp [hid], by simp [htot], ?_⟩
    simp only [appendEvent_processed, appendEvent_failed, applyUpdates_processed,
      applyUpdates_failed]
    rcases hop with ⟨hp, hf⟩ | ⟨p, f, hp, hf, hle⟩
    · simp [hp, hf]
      exact hsum
    · simp [hp, hf]
      exact hle
  | complete success =>
    refine ⟨_, get_task_complete_self success none hget hid, by simp [hid],
      by simp [htot], ?_⟩
    simp
    exact hsum

theorem apply_ops_inv {n : Nat} {id : String} {st : ServiceState}
    {ops : List StoreOp} (hInv : Inv n id st)
    (hops : ∀ op ∈ ops, counters_ok n op) :
    (∀ s ∈ op_states true id st ops, Inv n id s) ∧
      Inv n id (apply_ops true id st ops) := by
  induction ops generalizing st with
  | nil =>
    refine ⟨fun s hs => absurd hs (by simp [op_states]), ?_⟩
    simpa [apply_ops] using hInv
  | cons op rest ih =>
    have h1 : Inv n id (apply_op true id st op) :=
      apply_op_inv hInv (hops op (by simp))
    obtain ⟨ihs, ihf⟩ := ih h1 (fun o ho => hops o (by simp [ho]))
    constructor
    · intro s hs
      rcases (by simpa [op_states] using hs :
          s = apply_op true id st op ∨ s ∈ op_states true id (apply_op true id st op) rest) with
        rfl | hmem
      · exact h1
      · exact ihs s hmem
    · simpa [apply_ops] using ihf

theorem apply_ops_append (ok : Bool) (id : String) (st : ServiceState)
    (l1 l2 : List StoreOp) :
    apply_ops ok id st (l1 ++ l2) = apply_ops ok id (apply_ops ok id st l1) l2 := by
  simp [apply_ops, List.foldl_append]

/-- The `import_start` event of a batch of `n` photos. -/
def import_start_event (n : Nat) : Event :=
  ⟨"import_start",
   { total := some n, message := some ("开始导入 " ++ toString n ++ " 张照片") }⟩

/-- The `import_complete` event for final counters `(p, f)` of a batch of
`n` photos. -/
def import_complete_event (n p f : Nat) : Event :=
  ⟨"import_complete",
   { total := some n, processed := some p, failed := some f,
     message := some ("导入完成！成功 " ++ toString p ++ " 张，失败 " ++
       toString f ++ " 张") }⟩

/-- The manager state right after the `import_start` event of a fresh run. -/
def manager_after_start (id : String) (n : Nat) : Manager :=
  ⟨id, [some (import_start_event n)], n, 0, 0⟩

@[simp] theorem manager_after_start_processed (id : String) (n : Nat) :
    (manager_after_start id n).processed = 0 := rfl

@[simp] theorem manager_after_start_failed (id : String) (n : Nat) :
    (manager_after_start id n).failed = 0 := rfl

@[simp] theorem manager_after_start_total (id : String) (n : Nat) :
    (manager_after_start id n).total = n := rfl

theorem process_files_decomp (id : String) (jobs : List PhotoJob) :
    (process_files (new_manager id) jobs).2 =
      StoreOp.upd { processed := some 0, failed := some 0, current_file := some none }
          (some (import_start_event jobs.length)) ::
        ((process_jobs (manager_after_start id jobs.length) jobs).2 ++
          [StoreOp.upd
            { processed := some (process_jobs (manager_after_start id jobs.length) jobs).1.processed,
              failed := some (process_jobs (manager_after_start id jobs.length) jobs).1.failed,
              current_file := some none }
            (some (import_complete_event jobs.length
              (process_jobs (manager_after_start id jobs.length) jobs).1.processed
              (process_jobs (manager_after_start id jobs.length) jobs).1.failed)),
           StoreOp.complete
            ((process_jobs (manager_after_start id jobs.length) jobs).1.failed == 0)]) := by
  have htot : (process_jobs (manager_after_start id jobs.length) jobs).1.total =
      jobs.length := (process_jobs_manager _ _).1
  simp only [manager_after_start, import_start_event] at htot ⊢
  simp [process_files, send_event, new_manager, import_complete_event, htot]

theorem process_files_final_manager (id : String) (jobs : List PhotoJob) :
    (process_files (new_manager id) jobs).1.total = jobs.length ∧
    (process_files (new_manager id) jobs).1.processed +
      (process_files (new_manager id) jobs).1.failed = jobs.length ∧
    (process_files (new_manager id) jobs).1.failed = num_failed jobs := by
  obtain ⟨h1, _, h3, h4⟩ :=
    process_jobs_manager (manager_after_start id jobs.length) jobs
  simp only [manager_after_start_processed, manager_after_start_failed,
    manager_after_start_total] at h3 h4
  simp only [manager_after_start, import_start_event] at h1 h3 h4
  refine ⟨?_, ?_, ?_⟩ <;>
    · simp [process_files, send_event, new_manager, import_start_event]
      omega

theorem run_ops_counters (id : String) (jobs : List PhotoJob) :
    ∀ op ∈ (process_files (new_manager id) jobs).2, counters_ok jobs.length op := by
  intro op hop
  rw [process_files_decomp] at hop
  rcases (by simpa using hop :
      op = StoreOp.upd { processed := some 0, failed := some 0, current_file := some none }
          (some (import_start_event jobs.length)) ∨
      op ∈ (process_jobs (manager_after_start id jobs.length) jobs).2 ∨
      op = StoreOp.upd
            { processed := some (process_jobs (manager_after_start id jobs.length) jobs).1.processed,
              failed := some (process_jobs (manager_after_start id jobs.length) jobs).1.failed,
              current_file := some none }
            (some (import_complete_event jobs.length
              (process_jobs (manager_after_start id jobs.length) jobs).1.processed
              (process_jobs (manager_after_start id jobs.length) jobs).1.failed)) ∨
      op = StoreOp.complete
            ((process_jobs (manager_after_start id jobs.length) jobs).1.failed == 0))
    with rfl | hmid | rfl | rfl
  · exact Or.inr ⟨0, 0, rfl, rfl, by omega⟩
  · refine process_jobs_counters jobs ?_ op hmid
    simp
  · refine Or.inr ⟨_, _, rfl, rfl, ?_⟩
    have h3 := (process_jobs_manager (manager_after_start id jobs.length) jobs).2.2.1
    simp only [manager_after_start_processed, manager_after_start_failed] at h3
    omega
  · trivial

theorem create_task_inv (st0 : ServiceState) (id : String) (files : List String)
    (n : Nat) (hlen : files.length = n) :
    Inv n id (create_task true st0 id "stream" files.length files).1 :=
  ⟨⟨id, "stream", "pending", files.length, 0, 0, files, [], none, none⟩,
   get_task_create true st0 id "stream" files.length files, rfl, hlen, by simp⟩

theorem run_states_inv (st0 : ServiceState) (id : String) (files : List String)
    (jobs : List PhotoJob) (hlen : files.length = jobs.length) :
    ∀ s ∈ run_states true st0 id files jobs, Inv jobs.length id s := by
  intro s hs
  have hInv1 := create_task_inv st0 id files jobs.length hlen
  obtain ⟨hstates, _⟩ := apply_ops_inv hInv1 (run_ops_counters id jobs)
  rcases (by simpa [run_states] using hs :
      s = (create_task true st0 id "stream" files.length files).1 ∨
      s ∈ op_states true id (create_task true st0 id "stream" files.length files).1
            (process_files (new_manager id) jobs).2) with rfl | hmem
  · exact hInv1
  · exact hstates s hmem

theorem apply_ops_cons (ok : Bool) (id : String) (st : ServiceState)
    (op : StoreOp) (l : List StoreOp) :
    apply_ops ok id st (op :: l) = apply_ops ok id (apply_op ok id st op) l := by
  simp [apply_ops]

theorem run_import_terminal (st0 : ServiceState) (id : String)
    (files : List String) (jobs : List PhotoJob)
    (hlen : files.length = jobs.length) :
    ∀ t, get_task (run_import true st0 id files jobs).1 id = some t →
      (t.status = "completed" ∨ t.status = "failed") ∧
      t.processed + t.failed = t.total := by
  have hPF : (process_jobs (manager_after_start id jobs.length) jobs).1.processed +
      (process_jobs (manager_after_start id jobs.length) jobs).1.failed =
        jobs.length := by
    have h3 := (process_jobs_manager (manager_after_start id jobs.length) jobs).2.2.1
    simp only [manager_after_start_processed, manager_after_start_failed] at h3
    omega
  have hInv1 := create_task_inv st0 id files jobs.length hlen
  have hrun : (run_import true st0 id files jobs).1 =
      apply_ops true id (create_task true st0 id "stream" files.length files).1
        (process_files (new_manager id) jobs).2 := by
    simp [run_import, apply_ops]
  -- split the operation list at the two final effects
  have hops := process_files_decomp id jobs
  set m1 := manager_after_start id jobs.length
  set P := (process_jobs m1 jobs).1.processed
  set F := (process_jobs m1 jobs).1.failed
  set startOp := StoreOp.upd
    { processed := some 0, failed := some 0, current_file := some none }
    (some (import_start_event jobs.length))
  set icU : TaskUpdates :=
    { processed := some P, failed := some F, current_file := some none }
  set icOp := StoreOp.upd icU (some (import_complete_event jobs.length P F))
  set compOp := StoreOp.complete (F == 0)
  have hops2 : (process_files (new_manager id) jobs).2 =
      (startOp :: (process_jobs m1 jobs).2) ++ [icOp, compOp] := by
    rw [hops]
    simp
  have hfront : ∀ op ∈ startOp :: (process_jobs m1 jobs).2,
      counters_ok jobs.length op := by
    intro op hop
    refine run_ops_counters id jobs op ?_
    rw [hops2]
    exact List.mem_append.mpr (Or.inl hop)
  obtain ⟨_, hInvA⟩ := apply_ops_inv hInv1 hfront
  obtain ⟨t0, hget0, hid0, htot0, _⟩ := hInvA
  set stA := apply_ops true id (create_task true st0 id "stream" files.length files).1
    (startOp :: (process_jobs m1 jobs).2)
  have hstep1 : get_task (apply_op true id stA icOp) id =
      some (appendEvent (applyUpdates t0 icU)
        (some (import_complete_event jobs.length P F))) :=
    get_task_update_self true icU _ hget0
  set t1 := appendEvent (applyUpdates t0 icU)
    (some (import_complete_event jobs.length P F))
  have hid1 : t1.task_id = id := by simp [t1, hid0]
  have hstep2 : get_task (apply_op true id (apply_op true id stA icOp) compOp) id =
      some (applyUpdates t1
        { status := some (if (F == 0) then "completed" else "failed"),
          error := none }) :=
    get_task_complete_self (F == 0) none hstep1 hid1
  intro t ht
  rw [hrun, hops2, apply_ops_append] at ht
  rw [show apply_ops true id stA [icOp, compOp] =
      apply_op true id (apply_op true id stA icOp) compOp from by
    simp [apply_ops]] at ht
  rw [hstep2] at ht
  cases ht
  constructor
  · cases hF : (F == 0) <;> simp [hF]
  · simp [t1, icU, htot0, hPF]

theorem replay_history_eq_drop (t : Task) {c : Nat} (hc : 1 ≤ c) :
    replay_history t c = t.events.drop c := by
  unfold replay_history
  by_cases he : t.events = []
  · simp [he]
  · rw [if_pos ⟨by omega, he⟩]

/-- Appending events one at a time through `update_task` keeps the full log
as long as the total stays within the 100-event bound. -/
theorem append_run_events {st : ServiceState} {id : String} {t : Task}
    (h : get_task st id = some t) (l : List (TaskUpdates × Event))
    (hlen : t.events.length + l.length ≤ 100) :
    ∃ t', get_task
        (l.foldl (fun s p => update_task true s id p.1 (some p.2)) st) id =
          some t' ∧
      t'.events = t.events ++ l.map (fun p => p.2) := by
  induction l generalizing st t with
  | nil => exact ⟨t, h, by simp⟩
  | cons p rest ih =>
    have h1 := get_task_update_self true p.1 (some p.2) h
    have hev1 : (appendEvent (applyUpdates t p.1) (some p.2)).events =
        t.events ++ [p.2] := by
      have hl : ¬ 100 < ((applyUpdates t p.1).events ++ [p.2]).length := by
        simp only [applyUpdates_events, List.length_append, List.length_cons,
          List.length_nil]
        have : rest.length + 1 = (p :: rest).length := by simp
        omega
      simp [appendEvent, hl]
      intro hcon
      simp only [applyUpdates_events, List.length_append, List.length_cons,
        List.length_nil] at hl
      omega
    have hlen1 : (appendEvent (applyUpdates t p.1) (some p.2)).events.length +
        rest.length ≤ 100 := by
      rw [hev1]
      simp only [List.length_append, List.length_cons, List.length_nil]
      have : rest.length + 1 = (p :: rest).length := by simp
      omega
    obtain ⟨t', hget', hev'⟩ := ih h1 hlen1
    refine ⟨t', by simpa using hget', ?_⟩
    rw [hev', hev1]
    simp

/-- One numbered event (payload only a message), used for concrete replays. -/
def num_event (i : Nat) : Event := ⟨"e", { message := some (toString i) }⟩

/-- 101 numbered events. -/
def c1_events : List Event := (List.range 101).map num_event

/-- A store holding task `"t"` after 101 events have been appended to it. -/
def c1_store : ServiceState :=
  c1_events.foldl (fun s e => update_task true s "t" {} (some e))
    (create_task true ⟨[], []⟩ "t" "stream" 101 []).1

/-- The concrete single-photo job for observable-state runs: EXIF succeeds
with no GPS, the vision response is unparseable, persistence succeeds. -/
def c2job : PhotoJob := ⟨"p/a.jpg", "p1", .ok {}, none, .resp 200 "x" none, .ok ()⟩

theorem process_jobs_blocks (m : Manager) (jobs : List PhotoJob) :
    ∃ blocks : List (List Event),
      events_of (process_jobs m jobs).2 = blocks.flatten ∧
      blocks.length = jobs.length ∧
      List.Forall₂ (fun job blk =>
        completion_filter blk = [expected_completion job] ∧
        ∀ e ∈ blk, e.type ≠ "import_complete") jobs blocks := by
  induction jobs generalizing m with
  | nil => exact ⟨[], by simp [process_jobs, events_of], rfl, List.Forall₂.nil⟩
  | cons j rest ih =>
    obtain ⟨blocks, hb1, hb2, hb3⟩ := ih (process_photo m j).1
    refine ⟨events_of (process_photo m j).2 :: blocks, ?_, by simp [hb2], ?_⟩
    · rw [process_jobs_fst]
      simp only [events_of] at hb1 ⊢
      simp [List.filterMap_append, hb1]
    · exact List.Forall₂.cons
        ⟨process_photo_completion m j, process_photo_no_ic m j⟩ hb3

theorem process_files_counts (id : String) (jobs : List PhotoJob) :
    (process_files (new_manager id) jobs).1.processed =
      (process_jobs (manager_after_start id jobs.length) jobs).1.processed ∧
    (process_files (new_manager id) jobs).1.failed =
      (process_jobs (manager_after_start id jobs.length) jobs).1.failed := by
  constructor <;>
    · simp only [manager_after_start, import_start_event]
      simp [process_files, send_event, new_manager]

theorem process_files_events (id : String) (jobs : List PhotoJob) :
    ∃ blocks : List (List Event),
      events_of (process_files (new_manager id) jobs).2 =
        import_start_event jobs.length ::
          (blocks.flatten ++
            [import_complete_event jobs.length
              (process_files (new_manager id) jobs).1.processed
              (process_files (new_manager id) jobs).1.failed]) ∧
      blocks.length = jobs.length ∧
      List.Forall₂ (fun job blk =>
        completion_filter blk = [expected_completion job] ∧
        ∀ e ∈ blk, e.type ≠ "import_complete") jobs blocks := by
  obtain ⟨blocks, hb1, hb2, hb3⟩ :=
    process_jobs_blocks (manager_after_start id jobs.length) jobs
  obtain ⟨hc1, hc2⟩ := process_files_counts id jobs
  refine ⟨blocks, ?_, hb2, hb3⟩
  rw [process_files_decomp, hc1, hc2]
  simp only [events_of] at hb1 ⊢
  simp [List.filterMap_append, hb1]

/-- An error event for a failing job, as emitted by the worker. -/
theorem expected_completion_of_failure (job : PhotoJob) (msg : String)
    (h : job_failure job = some msg) :
    expected_completion job =
      ⟨"photo_error",
       { photo_id := some job.photo_id,
         filename := some (basename job.filepath), error := some msg }⟩ := by
  unfold job_failure at h
  unfold expected_completion
  cases hex : job.exif with
  | error m =>
    rw [hex] at h
    simp at h
    rw [h]
  | ok ex =>
    rw [hex] at h
    cases hp : job.persist with
    | error m =>
      rw [hp] at h
      simp at h
      rw [h]
    | ok u =>
      rw [hp] at h
      simp at h

/-- The provider-call failures of `analyze_photo`: an exception, a non-200
response, or an unparseable body. -/
def provider_failed : ProviderOutcome → Prop
  | .exn _ => True
  | .resp status _ parsed => status ≠ 200 ∨ parsed = none

/-- On any provider failure, `analyze_photo` returns a fallback dictionary
with no scores and no tags instead of raising. -/
theorem analyze_photo_fallback (o : ProviderOutcome) (h : provider_failed o) :
    (analyze_photo o).scores = none ∧ (analyze_photo o).tags = [] := by
  cases o with
  | exn msg => simp [analyze_photo]
  | resp status content parsed =>
    by_cases hs : status = 200
    · rcases h with h | h
      · exact absurd hs h
      · subst hs
        rw [h]
        simp [analyze_photo]
    · simp [analyze_photo, hs]

theorem one_le_five_tenth : IsTenth (1 : ℚ) ∧ IsTenth (5 : ℚ) :=
  ⟨⟨10, by norm_num⟩, ⟨50, by norm_num⟩⟩

theorem safe_score_low {x : ℚ} (h : x < 1) (d : ℚ) : safe_score (some x) d = 1 := by
  unfold safe_score
  rw [Option.getD_some]
  rw [show clamp15 x = 1 from by
    unfold clamp15
    rw [max_eq_right h.le]
    exact min_eq_left (by norm_num)]
  exact round1_of_isTenth one_le_five_tenth.1

theorem safe_score_high {x : ℚ} (h : 5 < x) (d : ℚ) : safe_score (some x) d = 5 := by
  unfold safe_score
  rw [Option.getD_some]
  rw [show clamp15 x = 5 from by
    unfold clamp15
    rw [max_eq_left (by linarith), min_eq_right (by linarith)]]
  exact round1_of_isTenth one_le_five_tenth.2

/-- Feeding already-sanitized sub-scores back through `_compute_overall`
(as `analyze_photo` does) reduces to the blend of those values with the
sanitized creativity. -/
theorem compute_overall_idem {c1 c2 c3 c4 : ℚ}
    (h1 : 1 ≤ c1 ∧ c1 ≤ 5 ∧ IsTenth c1) (h2 : 1 ≤ c2 ∧ c2 ≤ 5 ∧ IsTenth c2)
    (h3 : 1 ≤ c3 ∧ c3 ≤ 5 ∧ IsTenth c3) (h4 : 1 ≤ c4 ∧ c4 ≤ 5 ∧ IsTenth c4)
    (cr : Option ℚ) :
    compute_overall (some c1) (some c2) (some c3) (some c4) cr =
      round1 (clamp15 (overall_blend c1 c2 c3 c4
        (safe_score cr ((c1 + c2 + c3 + c4) / 4)))) := by
  unfold compute_overall compute_overall_raw
  rw [safe_score_idem h1.1 h1.2.1 h1.2.2, safe_score_idem h2.1 h2.2.1 h2.2.2,
    safe_score_idem h3.1 h3.2.1 h3.2.2, safe_score_idem h4.1 h4.2.1 h4.2.2]

theorem safe_score_four : safe_score (some 4) (28/10) = 4 :=
  safe_score_idem (by norm_num) (by norm_num) ⟨40, by norm_num⟩ _

theorem safe_score_three : safe_score (some 3) (28/10) = 3 :=
  safe_score_idem (by norm_num) (by norm_num) ⟨30, by norm_num⟩ _

theorem safe_score_mean_4343 : safe_score none ((4 + 3 + 4 + 3) / 4 : ℚ) = 7/2 := by
  unfold safe_score
  rw [Option.getD_none,
    show ((4 + 3 + 4 + 3) / 4 : ℚ) = 7/2 from by norm_num,
    clamp15_of_mem (by norm_num) (by norm_num),
    round1_of_isTenth ⟨35, by norm_num⟩]

/-- The raw weighted blend at sub-scores `(4, 3, 4, 3)` with no creativity:
`1.0 + 0.6 + 1.0 + 0.6 + 0.35 = 3.55`. -/
theorem compute_overall_raw_4343 :
    compute_overall_raw (some 4) (some 3) (some 4) (some 3) none = 71/20 := by
  unfold compute_overall_raw
  dsimp only
  rw [safe_score_four, safe_score_three, safe_score_mean_4343]
  unfold overall_blend
  norm_num

/-- `round(3.55, 1) = 3.6` (the tie rounds up to the even tenth). -/
theorem round1_c6 : round1 (71/20) = 18/5 := by
  unfold round1
  rw [show (71/20 : ℚ) * 10 = 71/2 from by norm_num,
    rhe_eval_tie_odd (show ⌊(71/2 : ℚ)⌋ = 35 from by
        rw [Int.floor_eq_iff]
        constructor <;> norm_num)
      (by push_cast; norm_num) (by norm_num)]
  norm_num

theorem compute_overall_4343 :
    compute_overall (some 4) (some 3) (some 4) (some 3) none = 18/5 := by
  unfold compute_overall
  rw [compute_overall_raw_4343, clamp15_of_mem (by norm_num) (by norm_num),
    round1_c6]

/-- A Python float as `_safe_score` can actually receive it: either NaN or a
real value.  `float('nan')` (and a literal `NaN` in the provider's JSON,
which `json.loads` accepts) converts successfully, so a NaN reaches the
clamping code rather than the `except` branch. -/
inductive PyFloat where
  | nan
  | val (x : ℚ)
deriving DecidableEq, Repr

/-- Python float comparison `a < b`: every comparison involving NaN is
false. -/
def PyFloat.lt : PyFloat → PyFloat → Bool
  | .val a, .val b => decide (a < b)
  | _, _ => false

/-- Python's two-argument `max(a, b)`: starts from `a` and replaces it only
when `b > a`, so a NaN first argument propagates. -/
def pymax (a b : PyFloat) : PyFloat := if PyFloat.lt a b then b else a

/-- Python's two-argument `min(a, b)`: starts from `a` and replaces it only
when `b < a`, so a NaN first argument propagates. -/
def pymin (a b : PyFloat) : PyFloat := if PyFloat.lt b a then b else a

/-- Python `round(x, 1)` on a float: NaN rounds to NaN. -/
def pyround1 : PyFloat → PyFloat
  | .nan => .nan
  | .val x => .val (round1 x)

/-- NaN-aware model of `VisionService._safe_score`: `none` is a value on
which `float(...)` raises (replaced by the default), `some .nan` is a value
on which `float(...)` succeeds with NaN; the result is
`round(min(max(score, 1.0), 5.0), 1)` under Python float semantics.
`safe_score` is the NaN-free fragment of this function
(`safe_score_f_val`). -/
def safe_score_f (value : Option PyFloat) (default : PyFloat) : PyFloat :=
  pyround1 (pymin (pymax (value.getD default) (.val 1)) (.val 5))

/-- Membership of a Python float in `[1, 5]` at one decimal; NaN lies in no
range. -/
def in_range_tenth : PyFloat → Prop
  | .nan => False
  | .val x => 1 ≤ x ∧ x ≤ 5 ∧ IsTenth x

theorem pymax_val (x a : ℚ) : pymax (.val x) (.val a) = .val (max x a) := by
  unfold pymax PyFloat.lt
  by_cases h : x < a
  · simp [h, max_eq_right h.le]
  · simp [h, max_eq_left (not_lt.mp h)]

theorem pymin_val (x a : ℚ) : pymin (.val x) (.val a) = .val (min x a) := by
  unfold pymin PyFloat.lt
  by_cases h : a < x
  · simp [h, min_eq_right h.le]
  · simp [h, min_eq_left (not_lt.mp h)]

/-- On real (non-NaN) inputs the NaN-aware sanitizer agrees with the
rational one. -/
theorem safe_score_f_val (x d : ℚ) :
    safe_score_f (some (.val x)) (.val d) = .val (safe_score (some x) d) := by
  unfold safe_score_f safe_score clamp15
  rw [Option.getD_some, Option.getD_some, pymax_val, pymin_val]
  rfl

theorem safe_score_f_none (d : ℚ) :
    safe_score_f none (.val d) = .val (round1 (clamp15 d)) := by
  unfold safe_score_f clamp15
  rw [Option.getD_none, pymax_val, pymin_val]
  rfl

/-- A NaN input passes the float conversion and then propagates through the
clamp and the rounding: the sanitizer returns NaN. -/
theorem safe_score_f_nan (d : PyFloat) :
    safe_score_f (some PyFloat.nan) d = PyFloat.nan := rfl

/-- The concrete single-photo job whose vision provider call raises: EXIF
succeeds with no GPS, persistence succeeds. -/
def c4job : PhotoJob := ⟨"p/a.jpg", "p1", .ok {}, none, .exn "connection error", .ok ()⟩

/-- A pre-existing task record under id `"t"`, used to exercise `create_task`
on an existing id. -/
def c7_old : Task := ⟨"t", "stream", "completed", 5, 3, 2, [], [], none, none⟩

/-- A store already holding `c7_old` in memory and on disk. -/
def c7_st : ServiceState := ⟨[("t", c7_old)], [("t", c7_old)]⟩

/-- A terminal task record with some counters, used for stream replays. -/
def c8_task : Task := ⟨"t", "stream", "completed", 2, 1, 1, [], [], none, none⟩

/-- A store holding only the terminal `c8_task`. -/
def c8_st : ServiceState := ⟨[("t", c8_task)], []⟩

set_option maxRecDepth 10000

/-- C1 (counterexample): replaying the durable log does not always yield the
events with sequence index ≥ cursor.  After 101 events are appended to task
`"t"`, the stored log has lost the first event (the store keeps only the
most recent 100), so replaying from cursor 1 yields the original events from
index 2 on — the event with index 1 is silently skipped — and replaying from
cursor 0 yields nothing at all even though events exist. -/
theorem C1_replay_truncation_cex :
    (get_task c1_store "t").map (fun t => t.events) = some (c1_events.drop 1) ∧
    (get_task c1_store "t").map (fun t => replay_history t 1) =
      some (c1_events.drop 2) ∧
    c1_events.drop 2 ≠ c1_events.drop 1 ∧
    (get_task c1_store "t").map (fun t => replay_history t 0) = some [] ∧
    c1_events ≠ [] := by decide

/-- C1 (amended): as long as at most 100 events have ever been appended to
the task and the cursor is at least 1, replaying the durable event log from
cursor `c` yields exactly the events with sequence index ≥ `c`, in their
original append order, with no gaps, duplicates or reordering. -/
theorem C1_replay_amended (st0 : ServiceState) (id ttype : String) (n : Nat)
    (files : List String) (l : List (TaskUpdates × Event)) (c : Nat)
    (hl : l.length ≤ 100) (hc : 1 ≤ c) :
    ∃ t, get_task (l.foldl (fun s p => update_task true s id p.1 (some p.2))
          (create_task true st0 id ttype n files).1) id = some t ∧
      t.events = l.map (fun p => p.2) ∧
      replay_history t c = (l.map (fun p => p.2)).drop c ∧
      (∀ i, (replay_history t c).get? i = (l.map (fun p => p.2)).get? (c + i)) := by
  obtain ⟨t, hget, hev⟩ := append_run_events
    (get_task_create true st0 id ttype n files) l (by simpa using hl)
  have hev2 : t.events = l.map (fun p => p.2) := by simpa using hev
  refine ⟨t, hget, hev2, ?_, ?_⟩
  · rw [replay_history_eq_drop t hc, hev2]
  · intro i
    rw [replay_history_eq_drop t hc, hev2]
    simp [List.getElem?_drop]

/-- C1 (amended, witness): a two-event log replayed from cursor 1. -/
theorem C1_replay_amended_witness :
    ∃ t, get_task ([(⟨{}, num_event 0⟩ : TaskUpdates × Event), ⟨{}, num_event 1⟩].foldl
          (fun s p => update_task true s "t" p.1 (some p.2))
          (create_task true ⟨[], []⟩ "t" "stream" 2 []).1) "t" = some t ∧
      t.events = [(⟨{}, num_event 0⟩ : TaskUpdates × Event), ⟨{}, num_event 1⟩].map (fun p => p.2) ∧
      replay_history t 1 =
        ([(⟨{}, num_event 0⟩ : TaskUpdates × Event), ⟨{}, num_event 1⟩].map (fun p => p.2)).drop 1 ∧
      (∀ i, (replay_history t 1).get? i =
        ([(⟨{}, num_event 0⟩ : TaskUpdates × Event), ⟨{}, num_event 1⟩].map (fun p => p.2)).get? (1 + i)) :=
  C1_replay_amended ⟨[], []⟩ "t" "stream" 2 [] _ 1 (by decide) (by decide)

/-- C2 (counterexample): an observable point where `processed + failed ==
total` holds while the status is still `"processing"`: in a one-photo run,
right after the `import_complete` event is persisted and before
`complete_task` runs, the stored record reads status `"processing"` with
`processed + failed = 1 = total`.  So equality does not imply a terminal
status. -/
theorem C2_iff_cex :
    ((run_states true ⟨[], []⟩ "t" ["p/a.jpg"] [c2job]).get? 8).map
        (fun s => (get_task s "t").map
          (fun t => (t.status, t.processed + t.failed, t.total)))
      = some (some ("processing", 1, 1)) ∧
    ("processing" : String) ≠ "completed" ∧ ("processing" : String) ≠ "failed" := by
  decide

/-- C2 (amended): at every observable point of a run (every persisted store
state), `processed + failed ≤ total` holds for the task record, and once the
run ends the record's status is terminal with `processed + failed = total`.
The converse (equality implying terminal status) fails, see the
counterexample. -/
theorem C2_invariant_amended (st0 : ServiceState) (id : String)
    (files : List String) (jobs : List PhotoJob)
    (hlen : files.length = jobs.length) :
    (∀ s ∈ run_states true st0 id files jobs, ∀ t, get_task s id = some t →
        t.processed + t.failed ≤ t.total) ∧
    (∀ t, get_task (run_import true st0 id files jobs).1 id = some t →
        (t.status = "completed" ∨ t.status = "failed") ∧
        t.processed + t.failed = t.total) := by
  constructor
  · intro s hs t ht
    obtain ⟨t0, hget0, _, htot0, hsum0⟩ := run_states_inv st0 id files jobs hlen s hs
    rw [ht] at hget0
    cases hget0
    omega
  · exact run_import_terminal st0 id files jobs hlen

/-- C2 (amended, witness): the one-photo run. -/
theorem C2_invariant_amended_witness :
    (∀ s ∈ run_states true ⟨[], []⟩ "t" ["p/a.jpg"] [c2job], ∀ t,
        get_task s "t" = some t → t.processed + t.failed ≤ t.total) ∧
    (∀ t, get_task (run_import true ⟨[], []⟩ "t" ["p/a.jpg"] [c2job]).1 "t" = some t →
        (t.status = "completed" ∨ t.status = "failed") ∧
        t.processed + t.failed = t.total) :=
  C2_invariant_amended ⟨[], []⟩ "t" ["p/a.jpg"] [c2job] rfl

/-- C3: every batch's event sequence is `import_start`, then one block per
submitted photo — each block carrying exactly one completion event, either
`photo_complete` or `photo_error`, and never an `import_complete` — followed
by the single final `import_complete`.  A failing photo's completion event
is a single `photo_error` carrying the filename and the error message, the
failure counter ends at the number of failing photos, and every photo gets a
block regardless of other photos' failures. -/
theorem C3_per_photo_completion (id : String) (jobs : List PhotoJob) :
    ∃ blocks : List (List Event),
      events_of (process_files (new_manager id) jobs).2 =
        import_start_event jobs.length ::
          (blocks.flatten ++
            [import_complete_event jobs.length
              (process_files (new_manager id) jobs).1.processed
              (process_files (new_manager id) jobs).1.failed]) ∧
      blocks.length = jobs.length ∧
      List.Forall₂ (fun job blk =>
        completion_filter blk = [expected_completion job] ∧
        ∀ e ∈ blk, e.type ≠ "import_complete") jobs blocks ∧
      (∀ job msg, job_failure job = some msg →
        expected_completion job =
          ⟨"photo_error",
           { photo_id := some job.photo_id,
             filename := some (basename job.filepath), error := some msg }⟩) ∧
      (process_files (new_manager id) jobs).1.failed = num_failed jobs := by
  obtain ⟨blocks, h1, h2, h3⟩ := process_files_events id jobs
  exact ⟨blocks, h1, h2, h3,
    fun job msg h => expected_completion_of_failure job msg h,
    (process_files_final_manager id jobs).2.2⟩

/-- C4 (counterexample): when the provider call raises, `analyze_photo`
returns a success-shaped fallback dictionary instead of raising, and the
worker records the photo as successfully processed: it emits
`photo_complete` (not `photo_error`) and leaves the failure counter at 0. -/
theorem C4_swallow_cex :
    analyze_photo (.exn "connection error") =
      ⟨"分析失败", [], "", "", none⟩ ∧
    (completion_filter (events_of (process_photo (new_manager "t") c4job).2)).map
        (fun e => e.type) = ["photo_complete"] ∧
    (process_photo (new_manager "t") c4job).1.failed = 0 ∧
    (process_photo (new_manager "t") c4job).1.processed = 1 := by decide

/-- C4 (amended): when the provider call fails (exception, non-200 response,
or unparseable output), `analyze_photo` returns a fallback result with no
scores rather than signaling failure, and the caller treats the photo as
successfully processed: it emits one `photo_complete` carrying zeroed
scores, increments the processed counter and leaves the failed counter
unchanged. -/
theorem C4_fallback_amended (m : Manager) (job : PhotoJob) (ex : ExifData)
    (hex : job.exif = .ok ex) (hp : job.persist = .ok ())
    (hv : provider_failed job.vision) :
    (analyze_photo job.vision).scores = none ∧
    completion_filter (events_of (process_photo m job).2) =
      [⟨"photo_complete",
        { photo_id := some job.photo_id,
          filename := some (basename job.filepath), success := some true,
          description := some (analyze_photo job.vision).description,
          tags := some [], location := photo_loc ex job.geocode,
          scores := some ⟨0, 0, 0, 0, 0, ""⟩ }⟩] ∧
    (process_photo m job).1.failed = m.failed ∧
    (process_photo m job).1.processed = m.processed + 1 := by
  obtain ⟨hs, ht⟩ := analyze_photo_fallback job.vision hv
  have hz : job_failure job = none := by simp [job_failure, hex, hp]
  have hm := (process_photo_manager m job).2.2
  refine ⟨hs, ?_, ?_, ?_⟩
  · rw [process_photo_completion]
    simp [expected_completion, hex, hp, hs, ht]
  · rcases hm with ⟨_, _, hf2⟩ | ⟨hn, _, _⟩
    · exact hf2
    · exact absurd hz hn
  · rcases hm with ⟨_, hp2, _⟩ | ⟨hn, _, _⟩
    · exact hp2
    · exact absurd hz hn

/-- C4 (amended, witness): the concrete raising-provider job. -/
theorem C4_fallback_amended_witness :
    (analyze_photo c4job.vision).scores = none ∧
    completion_filter (events_of (process_photo (new_manager "t") c4job).2) =
      [⟨"photo_complete",
        { photo_id := some c4job.photo_id,
          filename := some (basename c4job.filepath), success := some true,
          description := some (analyze_photo c4job.vision).description,
          tags := some [], location := photo_loc {} c4job.geocode,
          scores := some ⟨0, 0, 0, 0, 0, ""⟩ }⟩] ∧
    (process_photo (new_manager "t") c4job).1.failed = (new_manager "t").failed ∧
    (process_photo (new_manager "t") c4job).1.processed =
      (new_manager "t").processed + 1 :=
  C4_fallback_amended (new_manager "t") c4job {} rfl rfl trivial

/-- C5: on a successful analysis (HTTP 200 with parseable output) the result
carries a scores record in which composition, color, lighting, sharpness
and overall each lie in `[1, 5]` and are exact one-decimal values, and
overall is the clamped, one-decimal rounding of the weighted blend
`0.25·composition + 0.20·color + 0.25·lighting + 0.20·sharpness +
0.10·creativity`, where the creativity score defaults to the arithmetic
mean of the four sub-scores when absent. -/
theorem C5_scores_shape (content : String) (p : ParsedVision) :
    ∃ sc : PhotoScores,
      (analyze_photo (.resp 200 content (some p))).scores = some sc ∧
      (1 ≤ sc.composition ∧ sc.composition ≤ 5 ∧ IsTenth sc.composition) ∧
      (1 ≤ sc.color ∧ sc.color ≤ 5 ∧ IsTenth sc.color) ∧
      (1 ≤ sc.lighting ∧ sc.lighting ≤ 5 ∧ IsTenth sc.lighting) ∧
      (1 ≤ sc.sharpness ∧ sc.sharpness ≤ 5 ∧ IsTenth sc.sharpness) ∧
      (1 ≤ sc.overall ∧ sc.overall ≤ 5 ∧ IsTenth sc.overall) ∧
      sc.overall = round1 (clamp15 (overall_blend sc.composition sc.color
        sc.lighting sc.sharpness (safe_score p.creativity
          ((sc.composition + sc.color + sc.lighting + sc.sharpness) / 4)))) := by
  refine ⟨⟨safe_score p.composition (28/10), safe_score p.color (28/10),
    safe_score p.lighting (28/10), safe_score p.sharpness (28/10),
    compute_overall (some (safe_score p.composition (28/10)))
      (some (safe_score p.color (28/10)))
      (some (safe_score p.lighting (28/10)))
      (some (safe_score p.sharpness (28/10))) p.creativity, p.reason⟩,
    by simp [analyze_photo, analyze_success], ?_, ?_, ?_, ?_, ?_, ?_⟩
  · exact ⟨(safe_score_mem _ _).1, (safe_score_mem _ _).2, safe_score_isTenth _ _⟩
  · exact ⟨(safe_score_mem _ _).1, (safe_score_mem _ _).2, safe_score_isTenth _ _⟩
  · exact ⟨(safe_score_mem _ _).1, (safe_score_mem _ _).2, safe_score_isTenth _ _⟩
  · exact ⟨(safe_score_mem _ _).1, (safe_score_mem _ _).2, safe_score_isTenth _ _⟩
  · unfold compute_overall
    exact ⟨(round1_mem (one_le_clamp15 _) (clamp15_le _)).1,
      (round1_mem (one_le_clamp15 _) (clamp15_le _)).2, round1_isTenth _⟩
  · exact compute_overall_idem
      ⟨(safe_score_mem _ _).1, (safe_score_mem _ _).2, safe_score_isTenth _ _⟩
      ⟨(safe_score_mem _ _).1, (safe_score_mem _ _).2, safe_score_isTenth _ _⟩
      ⟨(safe_score_mem _ _).1, (safe_score_mem _ _).2, safe_score_isTenth _ _⟩
      ⟨(safe_score_mem _ _).1, (safe_score_mem _ _).2, safe_score_isTenth _ _⟩
      p.creativity

/-- C6 (counterexample): at sub-scores `(4.0, 3.0, 4.0, 3.0)` with no
creativity value, the raw weighted blend is `3.55` — not `3.65` as the spec
computes — and the rounded overall is `3.6`, not `3.7`. -/
theorem C6_value_cex :
    compute_overall_raw (some 4) (some 3) (some 4) (some 3) none ≠ 73/20 ∧
    compute_overall (some 4) (some 3) (some 4) (some 3) none ≠ 37/10 := by
  rw [compute_overall_raw_4343, compute_overall_4343]
  norm_num

/-- C6 (amended): at sub-scores `(4.0, 3.0, 4.0, 3.0)` with no creativity
value, creativity defaults to `3.5` and the overall equals
`4.0·0.25 + 3.0·0.20 + 4.0·0.25 + 3.0·0.20 + 3.5·0.10 = 3.55` before
rounding, and `3.6` after rounding to one decimal. -/
theorem C6_value_amended :
    compute_overall_raw (some 4) (some 3) (some 4) (some 3) none = 71/20 ∧
    compute_overall (some 4) (some 3) (some 4) (some 3) none = 18/5 :=
  ⟨compute_overall_raw_4343, compute_overall_4343⟩

/-- C7 (counterexample): creating a task under an id that already exists
does not fail — it returns a fresh record and silently overwrites the
existing one. -/
theorem C7_overwrite_cex :
    get_task c7_st "t" = some c7_old ∧
    (create_task true c7_st "t" "stream" 2 ["a.jpg", "b.jpg"]).2 =
      ⟨"t", "stream", "pending", 2, 0, 0, ["a.jpg", "b.jpg"], [], none, none⟩ ∧
    get_task (create_task true c7_st "t" "stream" 2 ["a.jpg", "b.jpg"]).1 "t" =
      some ⟨"t", "stream", "pending", 2, 0, 0, ["a.jpg", "b.jpg"], [], none, none⟩ ∧
    (⟨"t", "stream", "pending", 2, 0, 0, ["a.jpg", "b.jpg"], [], none, none⟩ : Task)
      ≠ c7_old := by decide

/-- C7 (amended): `create_task` performs no existence check: for any store —
including one already holding a record under `task_id` — it succeeds,
returns the fresh pending record, and that fresh record silently replaces
whatever was stored under the id. -/
theorem C7_overwrite_amended (ok : Bool) (st : ServiceState) (id ttype : String)
    (total : Nat) (files : List String) :
    (create_task ok st id ttype total files).2 =
      ⟨id, ttype, "pending", total, 0, 0, files, [], none, none⟩ ∧
    get_task (create_task ok st id ttype total files).1 id =
      some ⟨id, ttype, "pending", total, 0, 0, files, [], none, none⟩ :=
  ⟨rfl, get_task_create ok st id ttype total files⟩

/-- C8: opening the stream of a terminal task with any cursor at least its
stored event count yields exactly the synthesized `import_complete` summary
built from the stored totals followed by the terminal transport marker —
no per-photo events and no live tailing. -/
theorem C8_terminal_stream (st : ServiceState) (id : String) (c : Nat)
    (live : List (Option Event)) (task : Task)
    (hget : get_task st id = some task)
    (hterm : task.status = "completed" ∨ task.status = "failed")
    (hc : task.events.length ≤ c) :
    event_stream st id c live = [import_complete_of task, complete_event] := by
  unfold event_stream
  rw [hget]
  have hrep : replay_history task c = [] := by
    unfold replay_history
    split_ifs with h
    · exact List.drop_eq_nil_of_le hc
    · rfl
  simp only [hrep]
  rw [if_pos hterm]
  simp

/-- C8 (witness): a terminal task with no stored events, cursor 5. -/
theorem C8_terminal_stream_witness :
    event_stream c8_st "t" 5 [] = [import_complete_of c8_task, complete_event] :=
  C8_terminal_stream c8_st "t" 5 [] c8_task (by decide) (Or.inl rfl) (by decide)

/-- C9: persistence failures are swallowed: `update_task` (and `create_task`)
return normally whatever the save outcome, the in-memory record still
carries the update, and the returned values are identical whether the disk
write succeeded or failed — a caller cannot observe that the durable write
did not happen. -/
theorem C9_save_swallowed (st : ServiceState) (id : String) (u : TaskUpdates)
    (e : Option Event) (t : Task) (ok : Bool)
    (h : get_task st id = some t) :
    get_task (update_task ok st id u e) id =
      some (appendEvent (applyUpdates t u) e) ∧
    (update_task false st id u e).active = (update_task true st id u e).active ∧
    ∀ ttype total files,
      (create_task false st id ttype total files).2 =
        (create_task true st id ttype total files).2 ∧
      (create_task false st id ttype total files).1.active =
        (create_task true st id ttype total files).1.active := by
  refine ⟨get_task_update_self ok u e h, ?_, ?_⟩
  · unfold update_task
    rcases hgl : get_task_load st id with ⟨st1, ot⟩
    cases ot with
    | some t2 => simp [save_task]
    | none => rfl
  · intro ttype total files
    exact ⟨rfl, by simp [create_task, save_task]⟩

/-- C9 (witness): a failed save on a concrete store. -/
theorem C9_save_swallowed_witness :
    get_task (update_task false c8_st "t" { status := some "x" } none) "t" =
      some (appendEvent (applyUpdates c8_task { status := some "x" }) none) ∧
    (update_task false c8_st "t" { status := some "x" } none).active =
      (update_task true c8_st "t" { status := some "x" } none).active ∧
    ∀ ttype total files,
      (create_task false c8_st "t" ttype total files).2 =
        (create_task true c8_st "t" ttype total files).2 ∧
      (create_task false c8_st "t" ttype total files).1.active =
        (create_task true c8_st "t" ttype total files).1.active :=
  C9_save_swallowed c8_st "t" { status := some "x" } none c8_task false (by decide)

/-- C10 (counterexample): the sanitizer is not range-safe on every input the
program can receive: `float('nan')` converts successfully (reachable from a
literal `NaN` in the provider's JSON, which `json.loads` accepts, or the
string `"nan"`), and NaN propagates through `min(max(nan, 1.0), 5.0)` and
`round`, so `_safe_score` returns NaN — a value lying in no range and
clamped to no bound. -/
theorem C10_nan_cex :
    safe_score_f (some PyFloat.nan) (PyFloat.val (28/10)) = PyFloat.nan ∧
    ¬ in_range_tenth (safe_score_f (some PyFloat.nan) (PyFloat.val (28/10))) :=
  ⟨rfl, fun h => h⟩

/-- C10 (amended): on every input except NaN the score sanitizer lands on an
in-range one-decimal value: a missing or non-convertible value is replaced
by the (clamped, rounded) default, out-of-range numeric values clamp to the
nearest bound, and in the overall computation a missing creativity value
defaults to the mean of the four sanitized sub-scores.  A NaN input,
however, passes the float conversion and propagates: the result is NaN,
which lies in no range. -/
theorem C10_sanitizer_amended :
    ∀ (v : Option PyFloat) (d : ℚ),
      (v ≠ some PyFloat.nan → in_range_tenth (safe_score_f v (PyFloat.val d))) ∧
      (∀ x : ℚ, safe_score_f (some (PyFloat.val x)) (PyFloat.val d) =
        PyFloat.val (safe_score (some x) d)) ∧
      safe_score_f none (PyFloat.val d) = PyFloat.val (round1 (clamp15 d)) ∧
      safe_score_f (some PyFloat.nan) (PyFloat.val d) = PyFloat.nan ∧
      (∀ x : ℚ, x < 1 → safe_score_f (some (PyFloat.val x)) (PyFloat.val d) =
        PyFloat.val 1) ∧
      (∀ x : ℚ, 5 < x → safe_score_f (some (PyFloat.val x)) (PyFloat.val d) =
        PyFloat.val 5) ∧
      (∀ c1 c2 c3 c4 : Option ℚ,
        compute_overall_raw c1 c2 c3 c4 none =
          overall_blend (safe_score c1 (28/10)) (safe_score c2 (28/10))
            (safe_score c3 (28/10)) (safe_score c4 (28/10))
            (safe_score none ((safe_score c1 (28/10) + safe_score c2 (28/10) +
              safe_score c3 (28/10) + safe_score c4 (28/10)) / 4))) := by
  intro v d
  refine ⟨?_, fun x => safe_score_f_val x d, safe_score_f_none d,
    safe_score_f_nan _, fun x h => ?_, fun x h => ?_, fun c1 c2 c3 c4 => rfl⟩
  · intro hv
    match v with
    | none =>
      rw [safe_score_f_none]
      exact ⟨(round1_mem (one_le_clamp15 d) (clamp15_le d)).1,
        (round1_mem (one_le_clamp15 d) (clamp15_le d)).2, round1_isTenth _⟩
    | some PyFloat.nan => exact absurd rfl hv
    | some (PyFloat.val x) =>
      rw [safe_score_f_val]
      exact ⟨(safe_score_mem _ _).1, (safe_score_mem _ _).2, safe_score_isTenth _ _⟩
  · rw [safe_score_f_val, safe_score_low h]
  · rw [safe_score_f_val, safe_score_high h]

/-- C10 (amended, witness): the sanitizer at the out-of-range real inputs 0
and 7, and the in-range conclusion at 7. -/
theorem C10_sanitizer_amended_witness :
    in_range_tenth (safe_score_f (some (PyFloat.val 7)) (PyFloat.val (28/10))) ∧
    safe_score_f (some (PyFloat.val 0)) (PyFloat.val (28/10)) = PyFloat.val 1 ∧
    safe_score_f (some (PyFloat.val 7)) (PyFloat.val (28/10)) = PyFloat.val 5 :=
  ⟨(C10_sanitizer_amended (some (PyFloat.val 7)) (28/10)).1 (by simp),
   (C10_sanitizer_amended (some (PyFloat.val 0)) (28/10)).2.2.2.2.1 0 (by norm_num),
   (C10_sanitizer_amended (some (PyFloat.val 7)) (28/10)).2.2.2.2.2.1 7 (by norm_num)⟩

end PhotoMind
